import Mathlib

/-
  Verification of the kubetools-client reconciliation and status-aggregation
  core against its specification.

  Shallow embedding of:
  * `kubetools_client/dev/docker_util.py` — `get_containers_status`,
    `run_process` (container status aggregation and process running);
  * `kubetools_client/cli/deploy.py` — `remove`, `_get_objects_to_delete`
    (guarded bulk removal).

  Python dicts are modelled as association lists (`lookupA` / `insertA`
  mirror `d.get(k)` / `d[k] = v` with insertion order preserved), Python
  strings as `String` with character-list helpers mirroring `str.split`,
  `str.replace` and `str.startswith`, and raised exceptions as `Except`
  error values.
-/

namespace Kubetools

/-! ## Association list utilities (Python dict model) -/

/-- Lookup in an association list: `d.get(k)`. Returns the first binding. -/
def lookupA {α : Type} (s : List (String × α)) (k : String) : Option α :=
  match s with
  | [] => none
  | (k', v) :: rest => if k' = k then some v else lookupA rest k

/-- Update-or-append: `d[k] = v` on a Python dict. If the key is present its
value is replaced in place, otherwise the binding is appended at the end. -/
def insertA {α : Type} (s : List (String × α)) (k : String) (v : α) :
    List (String × α) :=
  match s with
  | [] => [(k, v)]
  | (k', v') :: rest =>
      if k' = k then (k', v) :: rest else (k', v') :: insertA rest k v

/-! ## Character-list string helpers (Python string operations) -/

/-- Boolean list-prefix test (`s.startswith(p)` on exploded strings). -/
def isPrefixL : List Char → List Char → Bool
  | [], _ => true
  | _ :: _, [] => false
  | p :: ps, c :: cs => p = c && isPrefixL ps cs

/-- Substring occurrence test: does `pat` occur contiguously in `s`?
The empty pattern occurs everywhere, as in Python's `pat in s`. -/
def containsSub (pat : List Char) : List Char → Bool
  | [] => isPrefixL pat []
  | c :: rest => isPrefixL pat (c :: rest) || containsSub pat rest

/-- Fuel-driven core of `str.replace(pat, '')`: scan left to right, removing
each non-overlapping occurrence of `pat`. `fuel` bounds the recursion; one
character of `s` is consumed per step so `s.length` fuel always suffices. -/
def replAux (pat : List Char) : Nat → List Char → List Char
  | _, [] => []
  | 0, s => s
  | fuel + 1, c :: rest =>
      if isPrefixL pat (c :: rest) then
        replAux pat fuel (rest.drop (pat.length - 1))
      else
        c :: replAux pat fuel rest

/-- Python `s.replace(pat, '')`: removes every occurrence of `pat` from `s`.
With an empty pattern Python returns `s` unchanged (empty replacement). -/
def pyReplace (s pat : List Char) : List Char :=
  if pat.isEmpty then s else replAux pat s.length s

/-- String wrapper for `s.replace(pat, '')`. -/
def pyReplaceStr (s pat : String) : String :=
  String.mk (pyReplace s.data pat.data)

/-- String wrapper for `s.startswith(p)`. -/
def startsWithPy (s p : String) : Bool :=
  isPrefixL p.data s.data

/-- Python `s.split(sep)` for a single-character separator. Always returns at
least one (possibly empty) segment. -/
def splitOnChar (sep : Char) : List Char → List (List Char)
  | [] => [[]]
  | c :: rest =>
      let r := splitOnChar sep rest
      if c = sep then [] :: r
      else
        match r with
        | seg :: segs => (c :: seg) :: segs
        | [] => [[c]]

/-! ## Data model for `get_containers_status` (docker_util.py) -/

/-- One live Docker container as returned by the runtime listing: its
runtime-assigned instance name, raw label mapping, status string, id, and the
`NetworkSettings.Ports` table (local port to the list of `HostPort` values). -/
structure DockerContainer where
  name : String
  labels : List (String × String)
  status : String
  id : String
  ports : List (String × List String)
deriving DecidableEq, Repr

/-- One entry of the aggregated port list: `{'local': ..., 'host': ...}`. -/
structure PortMap where
  local_port : String
  host : String
deriving DecidableEq, Repr

/-- One aggregated container record. Optional fields model Python dict keys
that may be absent or `None`: a live record has `up = some b`,
`id = some s`, `labels = some ls` and no flags until the merge phase; a
synthesized absent record has `up = none`, `id = none`, `ports = []`. -/
structure ContainerData where
  up : Option Bool
  ports : List PortMap
  id : Option String
  labels : Option (List (String × String))
  is_dependency : Option Bool
  is_deployment : Option Bool
deriving DecidableEq, Repr

/-- Per-environment container map (container name to record). -/
abbrev ContainerMap := List (String × ContainerData)

/-- The `env_to_containers` mapping (environment name to container map). -/
abbrev EnvMap := List (String × ContainerMap)

/-- One desired container declaration from `get_all_containers(config)`:
its name and the optional `is_dependency` / `is_deployment` keys. -/
structure DesiredContainer where
  name : String
  is_dependency : Option Bool
  is_deployment : Option Bool
deriving DecidableEq, Repr

/-- The parts of the kubetools project configuration the aggregator reads:
`config['name']`, `config['env']`, and the desired container declarations
produced by `get_all_containers(config)`. -/
structure KubetoolsConfig where
  name : String
  env : String
  containers : List DesiredContainer
deriving DecidableEq, Repr

/-- Errors raised inside `get_containers_status`: a missing mandatory label
(Python `KeyError`), the out-of-bounds `container.name.split('_')[1]`
(Python `IndexError`), and the duplicate-container `ValueError`. -/
inductive DockerStatusError where
  | keyError (key : String)
  | indexError (name : String)
  | duplicateError (env name : String)
deriving DecidableEq, Repr

/-- Environment resolution for one container (docker_util.py lines 133-136):
use the `kubetools.project.env` label when present and truthy, else strip
every occurrence of the dockerised project name from the compose project
(`compose_project.replace(docker_name, '')`). -/
def resolveEnv (docker_name compose_project : String)
    (labels : List (String × String)) : String :=
  let envLabel := (lookupA labels "kubetools.project.env").getD ""
  if envLabel = "" then pyReplaceStr compose_project docker_name else envLabel

/-- Logical-name extraction (docker_util.py line 139):
`container.name.split('_')[1]`, `none` when the index is out of bounds. -/
def resolveName (c : DockerContainer) : Option String :=
  match splitOnChar '_' c.name.data with
  | _ :: nm :: _ => some (String.mk nm)
  | _ => none

/-- Port list construction (docker_util.py lines 144-154): each entry of the
runtime port table is skipped when it has no host binding, otherwise the
first `HostPort` is taken. -/
def buildPorts (ports : List (String × List String)) : List PortMap :=
  ports.filterMap fun p =>
    match p with
    | (_, []) => none
    | (lp, h :: _) => some ⟨lp, h⟩

/-- The live `container_data` dict built for one container
(docker_util.py lines 141-161). -/
def mkContainerData (c : DockerContainer) : ContainerData :=
  { up := some (c.status = "running")
    ports := buildPorts c.ports
    id := some c.id
    labels := some c.labels
    is_dependency := none
    is_deployment := none }

/-- Process a single listed container into the accumulated environment map
(docker_util.py lines 128-170): read the compose project label, skip foreign
projects in all-environments mode, resolve environment and logical name, and
insert, raising on a duplicate name within the environment. -/
def processContainer (docker_name : String) (all_environments : Bool)
    (acc : EnvMap) (c : DockerContainer) :
    Except DockerStatusError EnvMap :=
  match lookupA c.labels "com.docker.compose.project" with
  | none => .error (.keyError "com.docker.compose.project")
  | some compose_project =>
      if all_environments ∧ ¬ startsWithPy compose_project docker_name then
        .ok acc
      else
        let env := resolveEnv docker_name compose_project c.labels
        match resolveName c with
        | none => .error (.indexError c.name)
        | some nm =>
            let env_containers := (lookupA acc env).getD []
            if (lookupA env_containers nm).isSome then
              .error (.duplicateError env nm)
            else
              .ok (insertA acc env (env_containers ++ [(nm, mkContainerData c)]))

/-- Fold `processContainer` over the listed containers, aborting on the first
raised error (the `for container in docker_containers` loop). -/
def processAll (docker_name : String) (all_environments : Bool) :
    EnvMap → List DockerContainer → Except DockerStatusError EnvMap
  | acc, [] => .ok acc
  | acc, c :: rest =>
      match processContainer docker_name all_environments acc c with
      | .error e => .error e
      | .ok acc2 => processAll docker_name all_environments acc2 rest

/-- Ensure the current environment key exists, appending an empty map when
absent (docker_util.py lines 172-175). -/
def ensureEnv (m : EnvMap) (env : String) : EnvMap :=
  if (lookupA m env).isSome then m else m ++ [(env, [])]

/-- Merge one desired container declaration into an environment's container
map (docker_util.py lines 178-187): synthesize an absent record when the name
was not observed live, then set the `is_dependency` / `is_deployment` flags
from the declaration (defaulting to false). -/
def mergeStep (sub : ContainerMap) (d : DesiredContainer) : ContainerMap :=
  let sub1 :=
    if (lookupA sub d.name).isSome then sub
    else insertA sub d.name
      { up := none, ports := [], id := none, labels := none
        is_dependency := none, is_deployment := none }
  match lookupA sub1 d.name with
  | some cd =>
      insertA sub1 d.name
        { cd with
          is_dependency := some (d.is_dependency.getD false)
          is_deployment := some (d.is_deployment.getD false) }
  | none => sub1

/-- Merge every desired container declaration into an environment's map. -/
def mergeDesired (desired : List DesiredContainer) (sub : ContainerMap) :
    ContainerMap :=
  desired.foldl mergeStep sub

/-- The completed `env_to_containers` map of `get_containers_status`
(docker_util.py lines 125-187): process all listed containers, ensure the
current environment key, then merge the desired declarations into every
environment. `dockerise_label` (imported from `config.py`, not part of the
aggregator) is passed in as a function. -/
def aggregateFull (dockerise_label : String → String)
    (config : KubetoolsConfig) (containers : List DockerContainer)
    (all_environments : Bool) : Except DockerStatusError EnvMap :=
  let docker_name := dockerise_label config.name
  match processAll docker_name all_environments [] containers with
  | .error e => .error e
  | .ok p =>
      .ok ((ensureEnv p config.env).map
        (fun es => (es.1, mergeDesired config.containers es.2)))

/-- Result of `get_containers_status`: the whole environment map in
all-environments mode, otherwise only the current environment's sub-map. -/
inductive StatusResult where
  | allEnvs (m : EnvMap)
  | oneEnv (sub : ContainerMap)
deriving DecidableEq, Repr

/-- `get_containers_status` (docker_util.py lines 88-191). The Docker-side
label filtering is external; `containers` is the listing the runtime
returned. Lines 189-191: return the full map when `all_environments`, else
`env_to_containers.get(config['env'], {})`. -/
def get_containers_status (dockerise_label : String → String)
    (config : KubetoolsConfig) (containers : List DockerContainer)
    (all_environments : Bool) : Except DockerStatusError StatusResult :=
  match aggregateFull dockerise_label config containers all_environments with
  | .error e => .error e
  | .ok m =>
      if all_environments then .ok (.allEnvs m)
      else .ok (.oneEnv ((lookupA m config.env).getD []))

/-! ## Data model for `run_process` (docker_util.py lines 277-318) -/

/-- Outcome of attempting to spawn and wait for the child process: either the
spawn itself fails with an operating-system error, or the child runs to
completion with an exit code and the lines of its combined output. -/
inductive ProcessOutcome where
  | spawnFailure (msg : String)
  | completed (code : Int) (lines : List String)
deriving DecidableEq, Repr

/-- Payload of a `KubeDevCommandError`: the second constructor argument in
Python is either the stdout value (`None` in inline mode, the joined capture
otherwise) or, for a spawn failure, the exception itself. -/
inductive ErrPayload where
  | stdout (s : Option String)
  | exception (msg : String)
deriving DecidableEq, Repr

/-- `KubeDevCommandError('Compose command failed: {args}', payload)`: carries
the attempted arguments and the output/exception payload. -/
structure KubeDevCommandError where
  args : List String
  payload : ErrPayload
deriving DecidableEq, Repr

/-- Python `'\n'.join(lines)` (docker_util.py line 260). -/
def joinLines : List String → String
  | [] => ""
  | [l] => l
  | l :: rest => l ++ "\n" ++ joinLines rest

/-- Capture-mode selection (docker_util.py lines 280-288):
`capture_output or (settings.debug == 0 and capture_output is not False)`,
where `capture_output` is `None`, `True` or `False`. -/
def computeCapturing (debug : Nat) (capture_output : Option Bool) : Bool :=
  capture_output == some true ||
    (debug == 0 && !(capture_output == some false))

/-- `run_process` (docker_util.py lines 277-318). The child's behavior is the
abstract `outcome` input. In captured mode the returned stdout is the joined
line buffer; in inline mode `communicate()` yields `None` (no pipe is
attached). A strictly positive exit code or a spawn-time `OSError`
raises `KubeDevCommandError`. -/
def run_process (args : List String) (debug : Nat)
    (capture_output : Option Bool) (outcome : ProcessOutcome) :
    Except KubeDevCommandError (Option String) :=
  let capturing := computeCapturing debug capture_output
  match outcome with
  | .spawnFailure msg => .error ⟨args, .exception msg⟩
  | .completed code lines =>
      let stdout : Option String :=
        if capturing then some (joinLines lines) else none
      if code > 0 then .error ⟨args, .stdout stdout⟩
      else .ok stdout

/-! ## Data model for `remove` (cli/deploy.py) -/

/-- A live Kubernetes object as seen by the removal flow: its
`metadata.name` and `metadata.labels`. -/
structure KubeObject where
  name : String
  labels : List (String × String)
deriving DecidableEq, Repr

/-- The backend API calls the removal flow performs, in order. -/
inductive ApiCall where
  | list (objectType : String)
  | delete (objectType : String) (name : String)
deriving DecidableEq, Repr

/-- Validation errors of the removal flow: the mutual-exclusion
`click.BadParameter` messages, and the leftover-names
`click.BadParameter(f'{object_type} not found {leftover_app_names}')`. -/
inductive RemoveError where
  | badParameter (msg : String)
  | notFound (objectType : String) (leftovers : Finset String)
deriving DecidableEq

/-- The `kubetools/name` label of an object (deploy.py line 178). -/
def getName (o : KubeObject) : Option String :=
  lookupA o.labels "kubetools/name"

/-- Live objects whose `kubetools/name` label is among the requested names
(deploy.py lines 177-180). -/
def matchingObjects (objects : List KubeObject) (appNames : List String) :
    List KubeObject :=
  objects.filter fun o =>
    match getName o with
    | some n => appNames.contains n
    | none => false

/-- `object_names_to_delete` (deploy.py lines 183-186): the set of
`kubetools/name` labels of the matched objects. -/
def matchedNames (objects : List KubeObject) (appNames : List String) :
    Finset String :=
  ((matchingObjects objects appNames).filterMap getName).toFinset

/-- `leftover_app_names` (deploy.py line 188):
`set(app_names) - object_names_to_delete`. -/
def leftoverAppNames (objects : List KubeObject) (appNames : List String) :
    Finset String :=
  appNames.toFinset \ matchedNames objects appNames

/-- `_get_objects_to_delete` (deploy.py lines 168-198): with `remove_all`
every live object is a candidate; otherwise the candidates are the matching
objects, and with `check_leftovers` a non-empty leftover set raises
`click.BadParameter` naming it. -/
def getObjectsToDelete (objectType : String) (objects : List KubeObject)
    (removeAll : Bool) (appNames : List String) (checkLeftovers : Bool) :
    Except RemoveError (List KubeObject) :=
  if removeAll then .ok objects
  else if checkLeftovers ∧ leftoverAppNames objects appNames ≠ ∅ then
    .error (.notFound objectType (leftoverAppNames objects appNames))
  else .ok (matchingObjects objects appNames)

/-- The delete calls `_delete_objects` performs for one object type
(deploy.py lines 201-204). -/
def deleteCalls (objectType : String) (objs : List KubeObject) :
    List ApiCall :=
  objs.map fun o => .delete objectType o.name

/-- `remove` (deploy.py lines 223-265), modelled as the trace of backend API
calls performed together with the raised error, if any. The mutual-exclusion
check runs before any listing; the three listings run in order with leftover
checking for services and deployments only; deletions happen only after all
three listings succeed (the confirmation prompt does not abort and is not
modelled). -/
def remove (removeAll : Bool) (appNames : List String)
    (services deployments jobs : List KubeObject) :
    List ApiCall × Option RemoveError :=
  if appNames.isEmpty ∧ ¬ removeAll then
    ([], some (.badParameter "Must either provide app names or --all flag!"))
  else if ¬ appNames.isEmpty ∧ removeAll then
    ([], some (.badParameter "Cannot provide both app naems and --all flag!"))
  else
    match getObjectsToDelete "Services" services removeAll appNames true with
    | .error e => ([.list "Services"], some e)
    | .ok svc =>
    match getObjectsToDelete "Deployments" deployments removeAll appNames true with
    | .error e => ([.list "Services", .list "Deployments"], some e)
    | .ok dep =>
    match getObjectsToDelete "Jobs" jobs removeAll appNames false with
    | .error e => ([.list "Services", .list "Deployments", .list "Jobs"], some e)
    | .ok jb =>
        let listCalls : List ApiCall :=
          [.list "Services", .list "Deployments", .list "Jobs"]
        if svc.isEmpty ∧ dep.isEmpty ∧ jb.isEmpty then (listCalls, none)
        else
          (listCalls ++ deleteCalls "Services" svc ++
            deleteCalls "Deployments" dep ++ deleteCalls "Jobs" jb, none)

/-! ## Association list lemmas -/

theorem lookupA_insertA_self {α : Type} (s : List (String × α)) (k : String)
    (v : α) : lookupA (insertA s k v) k = some v := by
  induction s with
  | nil => simp [insertA, lookupA]
  | cons p rest ih =>
      obtain ⟨k', v'⟩ := p
      by_cases h : k' = k
      · simp [insertA, lookupA, h]
      · simp [insertA, lookupA, h, ih]

theorem lookupA_insertA_ne {α : Type} (s : List (String × α)) (k k' : String)
    (v : α) (h : k' ≠ k) : lookupA (insertA s k v) k' = lookupA s k' := by
  have h' : ¬ (k = k') := fun hh => h hh.symm
  induction s with
  | nil => simp [insertA, lookupA, h']
  | cons p rest ih =>
      obtain ⟨k₀, v₀⟩ := p
      by_cases h₀ : k₀ = k
      · subst h₀
        simp [insertA, lookupA, h']
      · by_cases h₁ : k₀ = k'
        · subst h₁
          simp [insertA, lookupA, if_neg h₀]
        · simp [insertA, lookupA, if_neg h₀, h₁, ih]

theorem lookupA_some_mem {α : Type} {s : List (String × α)} {k : String}
    {v : α} (h : lookupA s k = some v) : (k, v) ∈ s := by
  induction s with
  | nil => simp [lookupA] at h
  | cons p rest ih =>
      obtain ⟨k₀, v₀⟩ := p
      by_cases h₀ : k₀ = k
      · subst h₀
        simp [lookupA] at h
        simp [h]
      · simp [lookupA, h₀] at h
        exact List.mem_cons_of_mem _ (ih h)

theorem lookupA_none_iff_not_key {α : Type} {s : List (String × α)}
    {k : String} : lookupA s k = none ↔ k ∉ s.map Prod.fst := by
  induction s with
  | nil => simp [lookupA]
  | cons p rest ih =>
      obtain ⟨k₀, v₀⟩ := p
      by_cases h₀ : k₀ = k
      · subst h₀
        simp [lookupA]
      · have h₀' : ¬ (k = k₀) := fun hh => h₀ hh.symm
        simp [lookupA, h₀, h₀', ih]

theorem lookupA_none_not_mem {α : Type} {s : List (String × α)} {k : String}
    (h : lookupA s k = none) : ∀ v : α, (k, v) ∉ s := by
  intro v hv
  exact lookupA_none_iff_not_key.mp h (List.mem_map.mpr ⟨(k, v), hv, rfl⟩)

theorem insertA_mem {α : Type} {s : List (String × α)} {k k' : String}
    {v v' : α} (h : (k', v') ∈ insertA s k v) :
    (k', v') ∈ s ∨ (k' = k ∧ v' = v) := by
  induction s with
  | nil =>
      simp [insertA] at h
      exact Or.inr h
  | cons p rest ih =>
      obtain ⟨k₀, v₀⟩ := p
      by_cases h₀ : k₀ = k
      · subst h₀
        simp [insertA] at h
        rcases h with h | h
        · exact Or.inr h
        · exact Or.inl (List.mem_cons_of_mem _ h)
      · simp [insertA, h₀] at h
        rcases h with h | h
        · exact Or.inl (by simp [h.1, h.2])
        · rcases ih h with h₁ | h₁
          · exact Or.inl (List.mem_cons_of_mem _ h₁)
          · exact Or.inr h₁

theorem lookupA_append_of_none {α : Type} {s : List (String × α)}
    {k : String} (t : List (String × α)) (h : lookupA s k = none) :
    lookupA (s ++ t) k = lookupA t k := by
  induction s with
  | nil => simp
  | cons p rest ih =>
      obtain ⟨k₀, v₀⟩ := p
      by_cases h₀ : k₀ = k
      · simp [lookupA, h₀] at h
      · simp [lookupA, h₀] at h ⊢
        exact ih h

theorem lookupA_map_value {α β : Type} (s : List (String × α))
    (f : α → β) (k : String) :
    lookupA (s.map (fun p => (p.1, f p.2))) k = (lookupA s k).map f := by
  induction s with
  | nil => simp [lookupA]
  | cons p rest ih =>
      obtain ⟨k₀, v₀⟩ := p
      by_cases h₀ : k₀ = k
      · simp [lookupA, h₀]
      · simp [lookupA, h₀, ih]

/-! ## String helper lemmas -/

theorem isPrefixL_append_self (p t : List Char) :
    isPrefixL p (p ++ t) = true := by
  induction p with
  | nil => rfl
  | cons c cs ih => simp [isPrefixL, ih]

theorem containsSub_nil_pat (s : List Char) : containsSub [] s = true := by
  cases s with
  | nil => rfl
  | cons c rest => simp [containsSub, isPrefixL]

theorem replAux_of_not_contains (pat : List Char) :
    ∀ (fuel : Nat) (s : List Char), containsSub pat s = false →
      s.length ≤ fuel → replAux pat fuel s = s := by
  intro fuel
  induction fuel with
  | zero =>
      intro s _ hlen
      have : s = [] := List.length_eq_zero.mp (Nat.le_zero.mp hlen)
      subst this
      rfl
  | succ f ih =>
      intro s hc hlen
      cases s with
      | nil => rfl
      | cons c rest =>
          have hsplit := hc
          simp [containsSub] at hsplit
          obtain ⟨hnp, hcr⟩ := hsplit
          simp [replAux, hnp]
          exact ih rest hcr (Nat.le_of_succ_le_succ hlen)

theorem pyReplace_strip_of_not_contains (pat t : List Char)
    (h : containsSub pat t = false) : pyReplace (pat ++ t) pat = t := by
  cases pat with
  | nil => rw [containsSub_nil_pat] at h; cases h
  | cons p ps =>
      have hpre : isPrefixL (p :: ps) (p :: (ps ++ t)) = true := by
        rw [← List.cons_append]
        exact isPrefixL_append_self (p :: ps) t
      have hdrop : (ps ++ t).drop ((p :: ps).length - 1) = t := by
        simp [List.drop_left]
      rw [pyReplace, List.cons_append]
      simp only [List.isEmpty_cons, Bool.false_eq_true, if_false,
        List.length_cons]
      rw [replAux, if_pos hpre, hdrop]
      exact replAux_of_not_contains (p :: ps) (ps ++ t).length t h
        (by simp)

theorem splitOnChar_of_not_mem (sep : Char) (l : List Char)
    (h : sep ∉ l) : splitOnChar sep l = [l] := by
  induction l with
  | nil => rfl
  | cons c rest ih =>
      have hc : ¬ (c = sep) := fun hh => h (hh ▸ List.mem_cons_self c rest)
      have hrest : sep ∉ rest := fun hh => h (List.mem_cons_of_mem c hh)
      simp [splitOnChar, hc, ih hrest]

theorem resolveName_none_of_no_sep (c : DockerContainer)
    (h : '_' ∉ c.name.data) : resolveName c = none := by
  rw [resolveName, splitOnChar_of_not_mem '_' c.name.data h]

/-! ## Merge-phase lemmas (docker_util.py lines 177-187) -/

theorem mergeStep_self (sub : ContainerMap) (d : DesiredContainer) :
    ∃ cd, lookupA (mergeStep sub d) d.name = some cd ∧
      cd.is_dependency = some (d.is_dependency.getD false) ∧
      cd.is_deployment = some (d.is_deployment.getD false) ∧
      (lookupA sub d.name = none →
        cd.up = none ∧ cd.id = none ∧ cd.ports = []) := by
  cases hl : lookupA sub d.name with
  | some cd0 =>
      refine ⟨{ cd0 with
                is_dependency := some (d.is_dependency.getD false),
                is_deployment := some (d.is_deployment.getD false) },
        ?_, rfl, rfl, ?_⟩
      · simp [mergeStep, hl, lookupA_insertA_self]
      · intro hnone; simp [hl] at hnone
  | none =>
      refine ⟨{ up := none, ports := [], id := none, labels := none,
                is_dependency := some (d.is_dependency.getD false),
                is_deployment := some (d.is_deployment.getD false) },
        ?_, rfl, rfl, fun _ => ⟨rfl, rfl, rfl⟩⟩
      simp [mergeStep, hl, lookupA_insertA_self]

theorem mergeStep_ne (sub : ContainerMap) (d : DesiredContainer)
    (n : String) (h : n ≠ d.name) :
    lookupA (mergeStep sub d) n = lookupA sub n := by
  cases hl : lookupA sub d.name with
  | some cd0 =>
      simp only [mergeStep, hl, Option.isSome_some, if_true]
      exact lookupA_insertA_ne _ _ _ _ h
  | none =>
      simp only [mergeStep, hl, Option.isSome_none, Bool.false_eq_true,
        if_false, lookupA_insertA_self]
      rw [lookupA_insertA_ne _ _ _ _ h, lookupA_insertA_ne _ _ _ _ h]

theorem mergeDesired_not_mem (desired : List DesiredContainer)
    (sub : ContainerMap) (n : String)
    (h : n ∉ desired.map DesiredContainer.name) :
    lookupA (mergeDesired desired sub) n = lookupA sub n := by
  induction desired generalizing sub with
  | nil => rfl
  | cons d rest ih =>
      have hn : n ≠ d.name := by
        intro hh
        exact h (by simp [hh])
      have hrest : n ∉ rest.map DesiredContainer.name := by
        intro hh
        exact h (by simp [hh])
      rw [mergeDesired, List.foldl_cons]
      show lookupA (mergeDesired rest (mergeStep sub d)) n = lookupA sub n
      rw [ih (mergeStep sub d) hrest, mergeStep_ne _ _ _ hn]

theorem mergeDesired_declares (desired : List DesiredContainer)
    (sub : ContainerMap) (d : DesiredContainer) (hd : d ∈ desired)
    (hnodup : (desired.map DesiredContainer.name).Nodup) :
    ∃ cd, lookupA (mergeDesired desired sub) d.name = some cd ∧
      cd.is_dependency = some (d.is_dependency.getD false) ∧
      cd.is_deployment = some (d.is_deployment.getD false) ∧
      (lookupA sub d.name = none →
        cd.up = none ∧ cd.id = none ∧ cd.ports = []) := by
  induction desired generalizing sub with
  | nil => cases hd
  | cons d0 rest ih =>
      have hpair : d0.name ∉ rest.map DesiredContainer.name ∧
          (rest.map DesiredContainer.name).Nodup := by
        rw [List.map_cons] at hnodup
        exact List.nodup_cons.mp hnodup
      rw [mergeDesired, List.foldl_cons]
      rcases List.mem_cons.mp hd with h0 | h0
      · subst h0
        obtain ⟨cd, hcd, hdep, hdepl, hsynth⟩ := mergeStep_self sub d
        refine ⟨cd, ?_, hdep, hdepl, hsynth⟩
        show lookupA (mergeDesired rest (mergeStep sub d)) d.name = some cd
        rw [mergeDesired_not_mem rest _ _ hpair.1]
        exact hcd
      · have hne : d.name ≠ d0.name := by
          intro hh
          exact hpair.1 (hh ▸ List.mem_map.mpr ⟨d, h0, rfl⟩)
        obtain ⟨cd, hcd, hdep, hdepl, hsynth⟩ :=
          ih (mergeStep sub d0) h0 hpair.2
        refine ⟨cd, ?_, hdep, hdepl, ?_⟩
        · show lookupA (mergeDesired rest (mergeStep sub d0)) d.name = some cd
          exact hcd
        · intro hnone
          exact hsynth (by rw [mergeStep_ne _ _ _ hne]; exact hnone)

/-! ## Processing-phase lemmas (docker_util.py lines 128-170) -/

/-- The per-environment uniqueness invariant: within every environment of the
map, container names occur at most once. -/
def GoodEnvMap (m : EnvMap) : Prop :=
  ∀ e sub, (e, sub) ∈ m → (sub.map Prod.fst).Nodup

theorem goodEnvMap_nil : GoodEnvMap [] := by
  intro e sub h
  cases h

theorem processContainer_good {docker_name : String} {ae : Bool}
    {acc acc2 : EnvMap} {c : DockerContainer}
    (hg : GoodEnvMap acc)
    (h : processContainer docker_name ae acc c = .ok acc2) :
    GoodEnvMap acc2 := by
  simp only [processContainer] at h
  split at h
  · cases h
  · rename_i compose_project hcp
    split at h
    · cases h
      exact hg
    · split at h
      · cases h
      · rename_i nm hnm
        split at h
        · cases h
        · rename_i hdup
          cases h
          intro e sub hmem
          rcases insertA_mem hmem with hmem | ⟨he, hsub⟩
          · exact hg e sub hmem
          · subst hsub
            have hold : (((lookupA acc
                (resolveEnv docker_name compose_project c.labels)).getD
                  []).map Prod.fst).Nodup := by
              cases hacc : lookupA acc
                  (resolveEnv docker_name compose_project c.labels) with
              | some sub0 =>
                  simpa using hg _ sub0 (lookupA_some_mem hacc)
              | none => simp
            have hnotin : nm ∉ ((lookupA acc
                (resolveEnv docker_name compose_project c.labels)).getD
                  []).map Prod.fst := by
              apply lookupA_none_iff_not_key.mp
              cases hfind : lookupA ((lookupA acc
                  (resolveEnv docker_name compose_project c.labels)).getD [])
                  nm with
              | some v => rw [hfind] at hdup; simp at hdup
              | none => rfl
            rw [List.map_append, List.nodup_append]
            refine ⟨hold, List.nodup_singleton _, ?_⟩
            intro x hx hx'
            simp only [List.map_cons, List.map_nil, List.mem_singleton] at hx'
            subst hx'
            exact hnotin hx

theorem processAll_good {docker_name : String} {ae : Bool}
    (cs : List DockerContainer) :
    ∀ {acc p : EnvMap}, GoodEnvMap acc →
      processAll docker_name ae acc cs = .ok p → GoodEnvMap p := by
  induction cs with
  | nil =>
      intro acc p hg h
      simp only [processAll] at h
      cases h
      exact hg
  | cons c rest ih =>
      intro acc p hg h
      simp only [processAll] at h
      split at h
      · cases h
      · rename_i acc2 hpc
        exact ih (processContainer_good hg hpc) h

theorem processContainer_ok_insert (docker_name : String) (ae : Bool)
    (acc : EnvMap) (c : DockerContainer) (compose_project nm : String)
    (hcp : lookupA c.labels "com.docker.compose.project" = some compose_project)
    (hfilter : ¬ (ae ∧ ¬ startsWithPy compose_project docker_name))
    (hnm : resolveName c = some nm)
    (hnodup : (lookupA ((lookupA acc
        (resolveEnv docker_name compose_project c.labels)).getD [])
        nm).isSome = false) :
    processContainer docker_name ae acc c =
      .ok (insertA acc (resolveEnv docker_name compose_project c.labels)
        (((lookupA acc
            (resolveEnv docker_name compose_project c.labels)).getD []) ++
          [(nm, mkContainerData c)])) := by
  simp only [processContainer, hcp, hnm, if_neg hfilter, hnodup,
    Bool.false_eq_true, if_false]

theorem processContainer_duplicate (docker_name : String) (ae : Bool)
    (acc : EnvMap) (c : DockerContainer) (compose_project nm : String)
    (hcp : lookupA c.labels "com.docker.compose.project" = some compose_project)
    (hfilter : ¬ (ae ∧ ¬ startsWithPy compose_project docker_name))
    (hnm : resolveName c = some nm)
    (hdup : (lookupA ((lookupA acc
        (resolveEnv docker_name compose_project c.labels)).getD [])
        nm).isSome = true) :
    processContainer docker_name ae acc c =
      .error (.duplicateError
        (resolveEnv docker_name compose_project c.labels) nm) := by
  simp only [processContainer, hcp, hnm, if_neg hfilter, hdup, if_true]

theorem processContainer_indexError (docker_name : String) (ae : Bool)
    (acc : EnvMap) (c : DockerContainer) (compose_project : String)
    (hcp : lookupA c.labels "com.docker.compose.project" = some compose_project)
    (hfilter : ¬ (ae ∧ ¬ startsWithPy compose_project docker_name))
    (hname : resolveName c = none) :
    processContainer docker_name ae acc c = .error (.indexError c.name) := by
  simp only [processContainer, hcp, hname, if_neg hfilter]

/-! ## Removal-flow lemmas (cli/deploy.py) -/

theorem getObjectsToDelete_check_error (objectType : String)
    (objects : List KubeObject) (appNames : List String)
    (h : leftoverAppNames objects appNames ≠ ∅) :
    getObjectsToDelete objectType objects false appNames true =
      .error (.notFound objectType (leftoverAppNames objects appNames)) := by
  simp [getObjectsToDelete, h]

theorem getObjectsToDelete_check_ok (objectType : String)
    (objects : List KubeObject) (appNames : List String)
    (h : leftoverAppNames objects appNames = ∅) :
    getObjectsToDelete objectType objects false appNames true =
      .ok (matchingObjects objects appNames) := by
  simp [getObjectsToDelete, h]

theorem getObjectsToDelete_no_check (objectType : String)
    (objects : List KubeObject) (removeAll : Bool) (appNames : List String) :
    getObjectsToDelete objectType objects removeAll appNames false =
      .ok (if removeAll then objects else matchingObjects objects appNames) := by
  by_cases h : removeAll = true
  · simp [getObjectsToDelete, h]
  · simp [getObjectsToDelete, h]

theorem isEmpty_false_of_ne_nil {α : Type} {l : List α} (h : l ≠ []) :
    l.isEmpty = false := by
  cases l with
  | nil => exact absurd rfl h
  | cons a t => rfl

theorem getObjectsToDelete_error_shape (objectType : String)
    (objects : List KubeObject) (removeAll : Bool) (appNames : List String)
    (checkLeftovers : Bool) :
    ∀ e, getObjectsToDelete objectType objects removeAll appNames
        checkLeftovers = .error e →
      e = .notFound objectType (leftoverAppNames objects appNames) := by
  intro e h
  rw [getObjectsToDelete] at h
  split at h
  · cases h
  · split at h
    · cases h; rfl
    · cases h

theorem remove_error_trace (removeAll : Bool) (appNames : List String)
    (services deployments jobs : List KubeObject) :
    (remove removeAll appNames services deployments jobs).2.isSome = true →
    (remove removeAll appNames services deployments jobs).1 = [] ∨
    (remove removeAll appNames services deployments jobs).1 =
      [.list "Services"] ∨
    (remove removeAll appNames services deployments jobs).1 =
      [.list "Services", .list "Deployments"] ∨
    (remove removeAll appNames services deployments jobs).1 =
      [.list "Services", .list "Deployments", .list "Jobs"] := by
  rw [remove]
  split
  · intro _; left; rfl
  · split
    · intro _; left; rfl
    · split
      · intro _; right; left; rfl
      · split
        · intro _; right; right; left; rfl
        · split
          · intro _; right; right; right; rfl
          · split
            · intro h; simp at h
            · intro h; simp at h

theorem remove_valid_args (removeAll : Bool) (appNames : List String)
    (services deployments jobs : List KubeObject)
    (h : (appNames ≠ [] ∧ removeAll = false) ∨
      (appNames = [] ∧ removeAll = true)) :
    (∀ msg, (remove removeAll appNames services deployments jobs).2 ≠
      some (.badParameter msg)) ∧
    ApiCall.list "Services" ∈
      (remove removeAll appNames services deployments jobs).1 := by
  have hcond1 : ¬ (appNames.isEmpty = true ∧ ¬ removeAll = true) := by
    rcases h with ⟨h1, _⟩ | ⟨_, h2⟩
    · intro hx
      rw [isEmpty_false_of_ne_nil h1] at hx
      cases hx.1
    · intro hx
      exact hx.2 h2
  have hcond2 : ¬ (¬ appNames.isEmpty = true ∧ removeAll = true) := by
    rcases h with ⟨_, h2⟩ | ⟨h1, _⟩
    · intro hx
      rw [h2] at hx
      cases hx.2
    · intro hx
      subst h1
      exact hx.1 rfl
  rw [remove, if_neg hcond1, if_neg hcond2]
  split
  · rename_i e heq
    constructor
    · intro msg hmsg
      injection hmsg with hh
      rw [getObjectsToDelete_error_shape _ _ _ _ _ e heq] at hh
      cases hh
    · simp
  · split
    · rename_i e heq
      constructor
      · intro msg hmsg
        injection hmsg with hh
        rw [getObjectsToDelete_error_shape _ _ _ _ _ e heq] at hh
        cases hh
      · simp
    · split
      · rename_i e heq
        constructor
        · intro msg hmsg
          injection hmsg with hh
          rw [getObjectsToDelete_error_shape _ _ _ _ _ e heq] at hh
          cases hh
        · simp
      · split
        · exact ⟨(fun msg hmsg => by simp at hmsg), (by simp)⟩
        · exact ⟨(fun msg hmsg => by simp at hmsg), (by simp)⟩

/-- C3: with explicit names, no remove-all flag, and leftover checking
enabled, `_get_objects_to_delete` raises a validation error iff the set of
requested names minus the logical-name labels of the matched live objects is
non-empty; the raised error names exactly that set; and whenever the removal
flow ends in an error, no delete call has been performed. -/
theorem c3_remove_leftover_validation :
    (∀ (objectType : String) (objects : List KubeObject)
      (appNames : List String),
      (∃ e, getObjectsToDelete objectType objects false appNames true =
        .error e) ↔ leftoverAppNames objects appNames ≠ ∅) ∧
    (∀ (objectType : String) (objects : List KubeObject)
      (appNames : List String) (e : RemoveError),
      getObjectsToDelete objectType objects false appNames true = .error e →
        e = .notFound objectType (leftoverAppNames objects appNames)) ∧
    (∀ (removeAll : Bool) (appNames : List String)
      (services deployments jobs : List KubeObject),
      (remove removeAll appNames services deployments jobs).2.isSome = true →
      ∀ (objectType nm : String),
        ApiCall.delete objectType nm ∉
          (remove removeAll appNames services deployments jobs).1) := by
  refine ⟨?_, ?_, ?_⟩
  · intro ot objects appNames
    by_cases h : leftoverAppNames objects appNames = ∅
    · rw [getObjectsToDelete_check_ok ot objects appNames h]
      simp [h]
    · rw [getObjectsToDelete_check_error ot objects appNames h]
      simp [h]
  · intro ot objects appNames e he
    exact getObjectsToDelete_error_shape ot objects false appNames true e he
  · intro removeAll appNames services deployments jobs hsome ot nm hmem
    rcases remove_error_trace removeAll appNames services deployments jobs
        hsome with h | h | h | h <;>
      · rw [h] at hmem
        simp at hmem

/-- C3 witness: requesting name "web" when only "api" is live raises the
leftover validation error, and the failing removal performs no deletion. -/
theorem c3_remove_leftover_validation_witness :
    (∃ e, getObjectsToDelete "Services"
      [⟨"apisvc", [("kubetools/name", "api")]⟩] false ["web"] true =
        .error e) ∧
    ApiCall.delete "Services" "apisvc" ∉
      (remove false ["web"] [⟨"apisvc", [("kubetools/name", "api")]⟩]
        [] []).1 :=
  ⟨(c3_remove_leftover_validation.1 "Services"
      [⟨"apisvc", [("kubetools/name", "api")]⟩] ["web"]).mpr (by decide),
   c3_remove_leftover_validation.2.2 false ["web"]
      [⟨"apisvc", [("kubetools/name", "api")]⟩] [] [] (by decide)
      "Services" "apisvc"⟩

/-- C4: removal requires exactly one of explicit app names and the
remove-all flag: with neither, or both, the operation raises the
corresponding `BadParameter` validation error with an empty call trace (no
listing or deletion performed); with exactly one, no mutual-exclusion error
is raised and listing proceeds. -/
theorem c4_remove_mutual_exclusion :
    ∀ (removeAll : Bool) (appNames : List String)
      (services deployments jobs : List KubeObject),
      ((appNames = [] ∧ removeAll = false) →
        remove removeAll appNames services deployments jobs =
          ([], some (.badParameter
            "Must either provide app names or --all flag!"))) ∧
      ((appNames ≠ [] ∧ removeAll = true) →
        remove removeAll appNames services deployments jobs =
          ([], some (.badParameter
            "Cannot provide both app naems and --all flag!"))) ∧
      (((appNames ≠ [] ∧ removeAll = false) ∨
          (appNames = [] ∧ removeAll = true)) →
        (∀ msg, (remove removeAll appNames services deployments jobs).2 ≠
          some (.badParameter msg)) ∧
        ApiCall.list "Services" ∈
          (remove removeAll appNames services deployments jobs).1) := by
  intro removeAll appNames services deployments jobs
  refine ⟨?_, ?_, ?_⟩
  · intro ⟨h1, h2⟩
    subst h1
    subst h2
    rfl
  · intro ⟨h1, h2⟩
    subst h2
    rw [remove]
    rw [if_neg (by intro hx; exact hx.2 rfl)]
    rw [if_pos ⟨(by rw [isEmpty_false_of_ne_nil h1]; intro hx; cases hx), rfl⟩]
  · exact remove_valid_args removeAll appNames services deployments jobs

/-- C4 witness: both failure cases raise the validation error with an empty
trace, and a valid invocation with only names performs the first listing and
raises no mutual-exclusion error. -/
theorem c4_remove_mutual_exclusion_witness :
    remove false [] [] [] [] =
      ([], some (.badParameter
        "Must either provide app names or --all flag!")) ∧
    remove true ["web"] [] [] [] =
      ([], some (.badParameter
        "Cannot provide both app naems and --all flag!")) ∧
    ApiCall.list "Services" ∈ (remove false ["web"] [] [] []).1 :=
  ⟨(c4_remove_mutual_exclusion false [] [] [] []).1 ⟨rfl, rfl⟩,
   (c4_remove_mutual_exclusion true ["web"] [] [] []).2.1
     ⟨by decide, rfl⟩,
   ((c4_remove_mutual_exclusion false ["web"] [] [] []).2.2
     (Or.inl ⟨by decide, rfl⟩)).2⟩

/-- C9: in the removal flow, leftover checking applies to the services and
deployments listings but not to jobs: an unmatched requested name among
services (or, services all matched, among deployments) raises the leftover
validation error, while with services and deployments fully matched the flow
raises no error at all, whatever the live jobs are — in particular requested
names matching no live job never raise one. -/
theorem c9_jobs_skip_leftover_check :
    ∀ (appNames : List String) (services deployments jobs : List KubeObject),
      appNames ≠ [] →
      ((leftoverAppNames services appNames ≠ ∅ →
        (remove false appNames services deployments jobs).2 =
          some (.notFound "Services" (leftoverAppNames services appNames))) ∧
      (leftoverAppNames services appNames = ∅ →
        leftoverAppNames deployments appNames ≠ ∅ →
        (remove false appNames services deployments jobs).2 =
          some (.notFound "Deployments"
            (leftoverAppNames deployments appNames))) ∧
      (leftoverAppNames services appNames = ∅ →
        leftoverAppNames deployments appNames = ∅ →
        (remove false appNames services deployments jobs).2 = none)) := by
  intro appNames services deployments jobs hne
  have hc1 : ¬ (appNames.isEmpty = true ∧ ¬ (false : Bool) = true) := by
    intro hx
    rw [isEmpty_false_of_ne_nil hne] at hx
    cases hx.1
  have hc2 : ¬ (¬ appNames.isEmpty = true ∧ (false : Bool) = true) := by
    intro hx
    cases hx.2
  refine ⟨?_, ?_, ?_⟩
  · intro h1
    rw [remove, if_neg hc1, if_neg hc2,
      getObjectsToDelete_check_error _ _ _ h1]
  · intro h1 h2
    rw [remove, if_neg hc1, if_neg hc2,
      getObjectsToDelete_check_ok _ _ _ h1,
      getObjectsToDelete_check_error _ _ _ h2]
  · intro h1 h2
    rw [remove, if_neg hc1, if_neg hc2,
      getObjectsToDelete_check_ok _ _ _ h1,
      getObjectsToDelete_check_ok _ _ _ h2,
      getObjectsToDelete_no_check]
    rw [show (if (false : Bool) = true then jobs
        else matchingObjects jobs appNames) = matchingObjects jobs appNames
      from rfl]
    dsimp only
    split
    · rfl
    · rfl

/-- C9 witness: with "web" matching a live service and deployment but no
job, removal raises no error; with no matching service it raises the
services leftover error. -/
theorem c9_jobs_skip_leftover_check_witness :
    (remove false ["web"] [⟨"websvc", [("kubetools/name", "web")]⟩]
      [⟨"webdep", [("kubetools/name", "web")]⟩] []).2 = none ∧
    (remove false ["web"] [] []
      [⟨"webjob", [("kubetools/name", "other")]⟩]).2 =
      some (.notFound "Services" (leftoverAppNames [] ["web"])) :=
  ⟨(c9_jobs_skip_leftover_check ["web"]
      [⟨"websvc", [("kubetools/name", "web")]⟩]
      [⟨"webdep", [("kubetools/name", "web")]⟩] [] (by decide)).2.2
      (by decide) (by decide),
   (c9_jobs_skip_leftover_check ["web"] [] []
      [⟨"webjob", [("kubetools/name", "other")]⟩] (by decide)).1
      (by decide)⟩

/-- C8: a process run fails iff the child's exit code is strictly positive
or the spawn raises an operating-system error; the raised error carries the
attempted arguments and, in captured mode, the captured output lines joined
with newlines (inline mode yields no captured output); an exit code of zero
or below returns the output without error. -/
theorem c8_run_process_failure (args : List String) (debug : Nat)
    (capture_output : Option Bool) :
    (∀ (code : Int) (lines : List String),
      (∃ e, run_process args debug capture_output (.completed code lines) =
        .error e) ↔ code > 0) ∧
    (∀ (code : Int) (lines : List String), code > 0 →
      run_process args debug capture_output (.completed code lines) =
        .error ⟨args, .stdout (if computeCapturing debug capture_output then
          some (joinLines lines) else none)⟩) ∧
    (∀ (code : Int) (lines : List String), ¬ code > 0 →
      run_process args debug capture_output (.completed code lines) =
        .ok (if computeCapturing debug capture_output then
          some (joinLines lines) else none)) ∧
    (∀ msg, run_process args debug capture_output (.spawnFailure msg) =
      .error ⟨args, .exception msg⟩) := by
  refine ⟨?_, ?_, ?_, ?_⟩
  · intro code lines
    constructor
    · intro ⟨e, he⟩
      by_cases h : code > 0
      · exact h
      · rw [run_process] at he
        simp only [if_neg h] at he
        cases he
    · intro h
      refine ⟨⟨args, .stdout (if computeCapturing debug capture_output then
        some (joinLines lines) else none)⟩, ?_⟩
      rw [run_process]
      simp only [if_pos h]
  · intro code lines h
    rw [run_process]
    simp only [if_pos h]
  · intro code lines h
    rw [run_process]
    simp only [if_neg h]
  · intro msg
    rfl

/-- C8 witness: a captured command exiting with code 2 raises the error
carrying the joined captured output, and code 0 succeeds. -/
theorem c8_run_process_failure_witness :
    run_process ["docker-compose", "up"] 0 none
        (.completed 2 ["line one", "line two"]) =
      .error ⟨["docker-compose", "up"],
        .stdout (some "line one\nline two")⟩ ∧
    run_process ["docker-compose", "up"] 0 none (.completed 0 ["ok"]) =
      .ok (some "ok") :=
  ⟨by
    have h := (c8_run_process_failure ["docker-compose", "up"] 0 none).2.1
      2 ["line one", "line two"] (by decide)
    rw [h]
    rfl,
   by
    have h := (c8_run_process_failure ["docker-compose", "up"] 0 none).2.2.1
      0 ["ok"] (by decide)
    rw [h]
    rfl⟩

theorem lookupA_ensureEnv_self (m : EnvMap) (env : String) :
    ∃ sub, lookupA (ensureEnv m env) env = some sub := by
  rw [ensureEnv]
  cases hl : lookupA m env with
  | some sub => exact ⟨sub, by simp [hl]⟩
  | none =>
      refine ⟨[], ?_⟩
      rw [if_neg (by simp)]
      rw [lookupA_append_of_none _ hl]
      simp [lookupA]

/-- C1: for every environment present in the aggregated result, every
container name declared in the desired configuration appears in that
environment's map; when the name was not observed live, the record is
synthesized with `up = none`, `id = none` and an empty port list; and in all
cases the record's `is_dependency` / `is_deployment` flags equal those of
the desired declaration, defaulting to false when undeclared. -/
theorem c1_aggregation_preserves_desired (dockerise_label : String → String)
    (config : KubetoolsConfig) (containers : List DockerContainer)
    (all_environments : Bool) (p : EnvMap)
    (hnodup : (config.containers.map DesiredContainer.name).Nodup)
    (hp : processAll (dockerise_label config.name) all_environments []
      containers = .ok p) :
    aggregateFull dockerise_label config containers all_environments =
      .ok ((ensureEnv p config.env).map
        (fun es => (es.1, mergeDesired config.containers es.2))) ∧
    ∀ e presub, (e, presub) ∈ ensureEnv p config.env →
      ∀ d ∈ config.containers, ∃ cd,
        lookupA (mergeDesired config.containers presub) d.name = some cd ∧
        cd.is_dependency = some (d.is_dependency.getD false) ∧
        cd.is_deployment = some (d.is_deployment.getD false) ∧
        (lookupA presub d.name = none →
          cd.up = none ∧ cd.id = none ∧ cd.ports = []) := by
  constructor
  · simp only [aggregateFull, hp]
  · intro e presub _ d hd
    exact mergeDesired_declares config.containers presub d hd hnodup

/-- Concrete desired container and configuration used by witnesses. -/
def exampleDesired : DesiredContainer := ⟨"web", some true, none⟩

/-- Concrete kubetools configuration used by witnesses. -/
def exampleConfig : KubetoolsConfig := ⟨"app", "dev", [exampleDesired]⟩

/-- C1 witness: instantiated at the example configuration with no live
containers. -/
theorem c1_aggregation_preserves_desired_witness :
    ((exampleConfig.containers.map DesiredContainer.name).Nodup ∧
      processAll ((fun s => s) exampleConfig.name) false [] [] = .ok []) ∧
    (aggregateFull (fun s => s) exampleConfig [] false =
      .ok ((ensureEnv [] exampleConfig.env).map
        (fun es => (es.1, mergeDesired exampleConfig.containers es.2))) ∧
    ∀ e presub, (e, presub) ∈ ensureEnv ([] : EnvMap) exampleConfig.env →
      ∀ d ∈ exampleConfig.containers, ∃ cd,
        lookupA (mergeDesired exampleConfig.containers presub) d.name =
          some cd ∧
        cd.is_dependency = some (d.is_dependency.getD false) ∧
        cd.is_deployment = some (d.is_deployment.getD false) ∧
        (lookupA presub d.name = none →
          cd.up = none ∧ cd.id = none ∧ cd.ports = [])) :=
  ⟨⟨by decide, rfl⟩,
   c1_aggregation_preserves_desired (fun s => s) exampleConfig [] false []
     (by decide) rfl⟩

/-- C2: live-container aggregation admits no duplicate logical names: any
map the processing loop returns has unique container names per environment,
and processing a container whose resolved environment and logical name
collide with an existing record raises the duplicate `ValueError` instead of
overwriting it. -/
theorem c2_duplicate_names_fatal :
    (∀ (docker_name : String) (ae : Bool) (cs : List DockerContainer)
      (p : EnvMap),
      processAll docker_name ae [] cs = .ok p →
      ∀ e sub, (e, sub) ∈ p → (sub.map Prod.fst).Nodup) ∧
    (∀ (docker_name : String) (ae : Bool) (acc : EnvMap)
      (c : DockerContainer) (compose_project nm : String),
      lookupA c.labels "com.docker.compose.project" = some compose_project →
      ¬ (ae ∧ ¬ startsWithPy compose_project docker_name) →
      resolveName c = some nm →
      (lookupA ((lookupA acc
        (resolveEnv docker_name compose_project c.labels)).getD [])
        nm).isSome = true →
      processContainer docker_name ae acc c =
        .error (.duplicateError
          (resolveEnv docker_name compose_project c.labels) nm)) :=
  ⟨fun _ _ cs _ hp e sub hmem =>
     processAll_good cs goodEnvMap_nil hp e sub hmem,
   fun dn ae acc c cp nm hcp hf hnm hdup =>
     processContainer_duplicate dn ae acc c cp nm hcp hf hnm hdup⟩

/-- Concrete duplicate-producing container used by the C2 witness. -/
def dupC : DockerContainer :=
  ⟨"appdev_web_1", [("com.docker.compose.project", "appdev")], "running",
    "c9", []⟩

/-- C2 witness: a second record resolving to (dev, web) on a map that
already holds one raises the duplicate error. -/
theorem c2_duplicate_names_fatal_witness :
    ((lookupA dupC.labels "com.docker.compose.project" = some "appdev") ∧
      resolveName dupC = some "web" ∧
      (lookupA ((lookupA [("dev", [("web", mkContainerData dupC)])]
        (resolveEnv "app" "appdev" dupC.labels)).getD [])
        "web").isSome = true) ∧
    processContainer "app" false
      [("dev", [("web", mkContainerData dupC)])] dupC =
      .error (.duplicateError (resolveEnv "app" "appdev" dupC.labels)
        "web") :=
  ⟨⟨by decide, by decide, by decide⟩,
   c2_duplicate_names_fatal.2 "app" false
     [("dev", [("web", mkContainerData dupC)])] dupC "appdev" "web"
     (by decide) (by simp) (by decide) (by decide)⟩

/-- C5: the scope (current) environment key is always present in the
aggregated map, even with zero live containers; and when all-environments
mode is off, `get_containers_status` returns exactly that environment's
sub-map, so the lookup of the scope environment never fails. -/
theorem c5_scope_env_always_present (dockerise_label : String → String)
    (config : KubetoolsConfig) (containers : List DockerContainer)
    (all_environments : Bool) (m : EnvMap)
    (hm : aggregateFull dockerise_label config containers
      all_environments = .ok m) :
    ∃ sub, lookupA m config.env = some sub ∧
      (all_environments = false →
        get_containers_status dockerise_label config containers
          all_environments = .ok (.oneEnv sub)) := by
  simp only [aggregateFull] at hm
  cases hpa : processAll (dockerise_label config.name) all_environments []
      containers with
  | error e => rw [hpa] at hm; cases hm
  | ok p =>
      rw [hpa] at hm
      injection hm with hm
      subst hm
      obtain ⟨sub0, hsub0⟩ := lookupA_ensureEnv_self p config.env
      refine ⟨mergeDesired config.containers sub0, ?_, ?_⟩
      · rw [lookupA_map_value (ensureEnv p config.env)
          (mergeDesired config.containers) config.env, hsub0]
        rfl
      · intro hae
        subst hae
        rw [get_containers_status]
        simp only [aggregateFull]
        rw [hpa]
        dsimp only
        rw [if_neg Bool.false_ne_true]
        rw [lookupA_map_value (ensureEnv p config.env)
          (mergeDesired config.containers) config.env, hsub0]
        rfl

/-- C5 witness: instantiated at the example configuration with no live
containers. -/
theorem c5_scope_env_always_present_witness :
    (aggregateFull (fun s => s) exampleConfig [] false =
      .ok [("dev", mergeDesired exampleConfig.containers [])]) ∧
    ∃ sub, lookupA [("dev", mergeDesired exampleConfig.containers [])]
        exampleConfig.env = some sub ∧
      ((false : Bool) = false →
        get_containers_status (fun s => s) exampleConfig [] false =
          .ok (.oneEnv sub)) :=
  ⟨rfl,
   c5_scope_env_always_present (fun s => s) exampleConfig [] false
     [("dev", mergeDesired exampleConfig.containers [])] rfl⟩

/-- C10: logical-name extraction takes the second underscore-delimited
segment of the runtime instance name; a listed container whose name has no
underscore (and which passes the project filter) makes the aggregation fail
with the out-of-bounds indexing error, not a typed error and not a skipped
record. -/
theorem c10_missing_separator_index_error (dockerise_label : String → String)
    (config : KubetoolsConfig) (c : DockerContainer)
    (rest : List DockerContainer) (all_environments : Bool)
    (compose_project : String)
    (hcp : lookupA c.labels "com.docker.compose.project" =
      some compose_project)
    (hfilter : ¬ (all_environments ∧
      ¬ startsWithPy compose_project (dockerise_label config.name)))
    (hsep : '_' ∉ c.name.data) :
    get_containers_status dockerise_label config (c :: rest)
      all_environments = .error (.indexError c.name) := by
  have hname := resolveName_none_of_no_sep c hsep
  have hpc := processContainer_indexError (dockerise_label config.name)
    all_environments [] c compose_project hcp hfilter hname
  rw [get_containers_status]
  simp only [aggregateFull, processAll, hpc]

/-- Concrete separator-free container used by the C10 witness. -/
def c10C : DockerContainer :=
  ⟨"noseps", [("com.docker.compose.project", "x")], "running", "i", []⟩

/-- C10 witness: a container named without any underscore fails aggregation
with the indexing error. -/
theorem c10_missing_separator_index_error_witness :
    ((lookupA c10C.labels "com.docker.compose.project" = some "x") ∧
      '_' ∉ c10C.name.data) ∧
    get_containers_status (fun s => s) exampleConfig [c10C] false =
      .error (.indexError c10C.name) :=
  ⟨⟨by decide, by decide⟩,
   c10_missing_separator_index_error (fun s => s) exampleConfig c10C []
     false "x" (by decide) (by simp) (by decide)⟩

theorem stringMk_data (s : String) : String.mk s.data = s := by
  cases s
  rfl

/-- C6 counterexample: the fallback is `compose_project.replace(docker_name,
'')`, which removes every occurrence of the project name, not only a leading
one. With project name "app" and group identifier "appapp2" (= "app" ++
"app2"), resolution yields "2", not "app2" as the claim requires. -/
theorem c6_env_resolution_counterexample :
    ("appapp2" = "app" ++ "app2") ∧
    resolveEnv "app" "appapp2" [] = "2" ∧
    resolveEnv "app" "appapp2" [] ≠ "app2" := by
  refine ⟨rfl, by decide, by decide⟩

/-- C6 (amended): identity resolution returns the explicit environment
label's value whenever that label is present and non-empty; otherwise it
removes every occurrence of the project-name prefix from the runtime group
identifier, so a record whose group identifier is the project-name prefix
followed by E resolves to environment E provided E does not itself contain
the project name as a substring. -/
theorem c6_env_resolution_amended :
    (∀ (docker_name compose_project e : String)
      (labels : List (String × String)),
      lookupA labels "kubetools.project.env" = some e → e ≠ "" →
      resolveEnv docker_name compose_project labels = e) ∧
    (∀ (docker_name rest : String) (labels : List (String × String)),
      (lookupA labels "kubetools.project.env").getD "" = "" →
      containsSub docker_name.data rest.data = false →
      resolveEnv docker_name (docker_name ++ rest) labels = rest) := by
  constructor
  · intro docker_name compose_project e labels hlab hne
    simp [resolveEnv, hlab, hne]
  · intro docker_name rest labels hlab hnc
    simp only [resolveEnv, hlab]
    rw [pyReplaceStr, String.data_append,
      pyReplace_strip_of_not_contains docker_name.data rest.data hnc,
      stringMk_data]
    simp

/-- C6 witness: with no environment label, group identifier "appdev" and
project name "app" resolve to environment "dev"; an explicit non-empty
label wins. -/
theorem c6_env_resolution_amended_witness :
    ((lookupA ([] : List (String × String))
        "kubetools.project.env").getD "" = "" ∧
      containsSub "app".data "dev".data = false ∧
      resolveEnv "app" ("app" ++ "dev") [] = "dev") ∧
    (lookupA [("kubetools.project.env", "prod")]
        "kubetools.project.env" = some "prod" ∧
      resolveEnv "app" "whatever" [("kubetools.project.env", "prod")] =
        "prod") :=
  ⟨⟨rfl, by decide,
    c6_env_resolution_amended.2 "app" "dev" [] rfl (by decide)⟩,
   ⟨rfl,
    c6_env_resolution_amended.1 "app" "whatever" "prod"
      [("kubetools.project.env", "prod")] rfl (by decide)⟩⟩

/-- Concrete container with an unresolvable environment used for C7: no
`kubetools.project.env` label, and the compose project equals the dockerised
project name, so the legacy fallback strips it to the empty string. -/
def c7C : DockerContainer :=
  ⟨"app_web_1", [("com.docker.compose.project", "app")], "running", "c1",
    []⟩

/-- Concrete configuration used for C7. -/
def c7Config : KubetoolsConfig := ⟨"app", "dev", []⟩

/-- C7 counterexample: when no environment can be derived (no explicit
label, and the legacy fallback yields the empty string) the aggregator does
not fail with any identity error: it returns normally and silently groups
the record under the empty-string environment key. -/
theorem c7_identity_error_counterexample :
    (lookupA c7C.labels "kubetools.project.env" = none) ∧
    resolveEnv "app" "app" c7C.labels = "" ∧
    get_containers_status (fun s => s) c7Config [c7C] true =
      .ok (.allEnvs [("", [("web", mkContainerData c7C)]), ("dev", [])]) :=
  ⟨rfl, by decide, by rfl⟩

/-- C7 (amended): a live record with no explicit environment label whose
legacy fallback strips the group identifier to the empty string is not an
error: processing succeeds and the record is grouped under the empty-string
environment name (no identity error exists in the aggregator). -/
theorem c7_unresolvable_env_grouped_empty (docker_name : String)
    (ae : Bool) (acc : EnvMap) (c : DockerContainer)
    (compose_project nm : String)
    (hcp : lookupA c.labels "com.docker.compose.project" =
      some compose_project)
    (hfilter : ¬ (ae ∧ ¬ startsWithPy compose_project docker_name))
    (hlab : (lookupA c.labels "kubetools.project.env").getD "" = "")
    (hrepl : pyReplaceStr compose_project docker_name = "")
    (hnm : resolveName c = some nm)
    (hnew : (lookupA ((lookupA acc "").getD []) nm).isSome = false) :
    processContainer docker_name ae acc c =
      .ok (insertA acc ""
        (((lookupA acc "").getD []) ++ [(nm, mkContainerData c)])) := by
  have he : resolveEnv docker_name compose_project c.labels = "" := by
    rw [resolveEnv]
    simp only [hlab, if_pos rfl]
    exact hrepl
  have h1 := processContainer_ok_insert docker_name ae acc c
    compose_project nm hcp hfilter hnm (by rw [he]; exact hnew)
  rw [he] at h1
  exact h1

/-- C7 witness: the concrete unresolvable container is grouped under the
empty environment and processing returns normally. -/
theorem c7_unresolvable_env_grouped_empty_witness :
    ((lookupA c7C.labels "com.docker.compose.project" = some "app") ∧
      (lookupA c7C.labels "kubetools.project.env").getD "" = "" ∧
      pyReplaceStr "app" "app" = "" ∧
      resolveName c7C = some "web") ∧
    processContainer "app" true [] c7C =
      .ok (insertA [] ""
        (((lookupA ([] : EnvMap) "").getD []) ++
          [("web", mkContainerData c7C)])) :=
  ⟨⟨by decide, rfl, by decide, by decide⟩,
   c7_unresolvable_env_grouped_empty "app" true [] c7C "app" "web"
     (by decide) (by simp [startsWithPy, isPrefixL]) rfl (by decide)
     (by decide) (by decide)⟩

end Kubetools
